import Mathlib

/-!
Verification of the scipion-fluo-singleparticle plugin sources.

The Python sources under src/ are shallowly embedded below: pure
functions become Lean functions, mutation becomes explicit state
passing, raised exceptions become error results.  Machine floats that
only ever hold small integer or decimal literals are embedded as exact
rationals or integers.  Each embedded definition names the source
function it mirrors.
-/

namespace SpfluoVerif

/-! ## Embedding of spfluo/objects/data.py : Transform

A numpy 4x4 array literal of integers is embedded as a list of rows of
integers, exactly as it is written in the source.
-/

/-- A 4x4 homogeneous matrix, written as numpy row lists: src/spfluo/objects/data.py. -/
abbrev Mat4 := List (List ℤ)

/-- A Transform wraps a 4x4 matrix (class Transform, src/spfluo/objects/data.py). -/
structure Transform where
  matrix : Mat4
deriving DecidableEq, Repr

/-- Constant ROT_X_90_CLOCKWISE of class Transform. -/
def Transform.ROT_X_90_CLOCKWISE : String := "rotX90c"

/-- Constant ROT_Y_90_CLOCKWISE of class Transform. -/
def Transform.ROT_Y_90_CLOCKWISE : String := "rotY90c"

/-- Constant ROT_Z_90_CLOCKWISE of class Transform. -/
def Transform.ROT_Z_90_CLOCKWISE : String := "rotZ90c"

/-- Constant ROT_X_90_COUNTERCLOCKWISE of class Transform. -/
def Transform.ROT_X_90_COUNTERCLOCKWISE : String := "rotX90cc"

/-- Constant ROT_Y_90_COUNTERCLOCKWISE of class Transform. -/
def Transform.ROT_Y_90_COUNTERCLOCKWISE : String := "rotY90cc"

/-- Constant ROT_Z_90_COUNTERCLOCKWISE of class Transform. -/
def Transform.ROT_Z_90_COUNTERCLOCKWISE : String := "rotZ90cc"

/-- The list TRANSFORMATION_FACTORY_TYPES built in the else branch of
Transform.create (src/spfluo/objects/data.py lines 174-181), in source order. -/
def TRANSFORMATION_FACTORY_TYPES : List String :=
  [Transform.ROT_X_90_CLOCKWISE,
   Transform.ROT_Y_90_CLOCKWISE,
   Transform.ROT_Z_90_CLOCKWISE,
   Transform.ROT_X_90_COUNTERCLOCKWISE,
   Transform.ROT_Y_90_COUNTERCLOCKWISE,
   Transform.ROT_Z_90_COUNTERCLOCKWISE]

/-- The message of the Exception raised by Transform.create for an
unrecognized type string (src/spfluo/objects/data.py lines 182-183). -/
def notRecognizedMsg : String :=
  "Introduced Transformation type is not recognized.\nAdmitted values are\n"
    ++ String.intercalate " " TRANSFORMATION_FACTORY_TYPES

/-- Transform.create (src/spfluo/objects/data.py lines 131-183): the if/elif
chain on the type string, with the numpy array literals transcribed row by
row; the else branch raises an Exception, embedded as an error result. -/
def Transform.create (type : String) : Except String Transform :=
  if type = Transform.ROT_X_90_CLOCKWISE then
    Except.ok ⟨[[1, 0, 0, 0],
                [0, 0, 1, 0],
                [0, -1, 0, 0],
                [0, 0, 0, 1]]⟩
  else if type = Transform.ROT_X_90_COUNTERCLOCKWISE then
    Except.ok ⟨[[1, 0, 0, 0],
                [0, 0, -1, 0],
                [0, 1, 0, 0],
                [0, 0, 0, 1]]⟩
  else if type = Transform.ROT_Y_90_CLOCKWISE then
    Except.ok ⟨[[1, 0, -1, 0],
                [0, 1, 0, 0],
                [1, 0, 0, 0],
                [0, 0, 0, 1]]⟩
  else if type = Transform.ROT_Y_90_COUNTERCLOCKWISE then
    Except.ok ⟨[[1, 0, 1, 0],
                [0, 1, 0, 0],
                [-1, 0, 0, 0],
                [0, 0, 0, 1]]⟩
  else if type = Transform.ROT_Z_90_CLOCKWISE then
    Except.ok ⟨[[0, 1, 0, 0],
                [-1, 0, 0, 0],
                [0, 0, 1, 0],
                [0, 0, 0, 1]]⟩
  else if type = Transform.ROT_Z_90_COUNTERCLOCKWISE then
    Except.ok ⟨[[0, -1, 0, 0],
                [1, 0, 0, 0],
                [0, 0, 1, 0],
                [0, 0, 0, 1]]⟩
  else
    Except.error notRecognizedMsg

/-! ### Specification-side predicates on 4x4 matrices -/

/-- Entry (i, j) of an embedded matrix (0 outside the stored rows). -/
def entry (M : Mat4) (i j : ℕ) : ℤ := (M.getD i []).getD j 0

/-- Dot product of columns i and j of the upper-left 3x3 block. -/
def colDot (M : Mat4) (i j : ℕ) : ℤ :=
  entry M 0 i * entry M 0 j + entry M 1 i * entry M 1 j + entry M 2 i * entry M 2 j

/-- Determinant of the upper-left 3x3 block, by the cofactor formula. -/
def det3 (M : Mat4) : ℤ :=
  entry M 0 0 * (entry M 1 1 * entry M 2 2 - entry M 1 2 * entry M 2 1)
    - entry M 0 1 * (entry M 1 0 * entry M 2 2 - entry M 1 2 * entry M 2 0)
    + entry M 0 2 * (entry M 1 0 * entry M 2 1 - entry M 1 1 * entry M 2 0)

/-- The upper-left 3x3 block R satisfies R transposed times R = identity. -/
def orthonormal3 (M : Mat4) : Prop :=
  ∀ i < 3, ∀ j < 3, colDot M i j = if i = j then 1 else 0

instance (M : Mat4) : Decidable (orthonormal3 M) := by
  unfold orthonormal3; infer_instance

/-- The matrix is a standard homogeneous rotation: 4x4 shape, orthonormal
3x3 block of determinant one, zero translation column, bottom row 0 0 0 1. -/
def isStdHomRotation (M : Mat4) : Prop :=
  M.length = 4 ∧ (∀ r ∈ M, r.length = 4) ∧
  orthonormal3 M ∧ det3 M = 1 ∧
  entry M 0 3 = 0 ∧ entry M 1 3 = 0 ∧ entry M 2 3 = 0 ∧
  entry M 3 0 = 0 ∧ entry M 3 1 = 0 ∧ entry M 3 2 = 0 ∧ entry M 3 3 = 1

instance (M : Mat4) : Decidable (isStdHomRotation M) := by
  unfold isStdHomRotation; infer_instance

/-- Boolean check: Transform.create on this type string succeeds and the
created matrix is a standard homogeneous rotation. -/
def createGivesRotation (ty : String) : Bool :=
  match Transform.create ty with
  | Except.ok T => decide (isStdHomRotation T.matrix)
  | Except.error _ => false

/-! ## Embedding of spfluo/objects/data.py : Image and SetOfImages

Mutation of Python objects becomes explicit state passing; a raised
ValueError becomes an error component in the result.  The file read
performed by AICSImage inside setFileName is embedded by passing the
dimensions found on disk as an extra argument.
-/

/-- The identity matrix np.eye(4) used to initialise a Matrix. -/
def eye4 : Mat4 := [[1, 0, 0, 0], [0, 1, 0, 0], [0, 0, 1, 0], [0, 0, 0, 1]]

/-- State of class Image (src/spfluo/objects/data.py lines 266-294):
filename wraps the String scalar, imgLoaded tells whether the private
AICSImage field is not None, samplingRate and imageDim embed the CsvList
wrappers (an empty CsvList is none). -/
structure Image where
  filename : Option String := none
  imgLoaded : Bool := false
  samplingRate : Option (ℚ × ℚ) := none
  transform : Transform := ⟨eye4⟩
  origin : Transform := ⟨eye4⟩
  imageDim : Option (ℕ × ℕ × ℕ) := none
deriving DecidableEq, Repr

/-- An Image as produced by the constructor with no filename. -/
def Image.initial : Image := {}

/-- Image.isEmpty (line 296): the private AICSImage field is None. -/
def Image.isEmpty (img : Image) : Bool := !img.imgLoaded

/-- Image.getSamplingRate via SamplingRate.getSR (lines 299-301, 250-253). -/
def Image.getSamplingRate (img : Image) : Option (ℚ × ℚ) := img.samplingRate

/-- Image.setSamplingRate via SamplingRate.setSR (lines 303-304, 243-248). -/
def Image.setSamplingRate (img : Image) (sr : ℚ × ℚ) : Image :=
  { img with samplingRate := some sr }

/-- Image.getDim (lines 319-324): the stored ImageDim, none when unset. -/
def Image.getDim (img : Image) : Option (ℕ × ℕ × ℕ) := img.imageDim

/-- Image.getFileName (lines 336-341): raises ValueError when the filename
scalar holds None. -/
def Image.getFileName (img : Image) : Except String String :=
  match img.filename with
  | none => Except.error "Image has no filename!"
  | some f => Except.ok f

/-- Image.setFileName (lines 343-348): stores the filename, opens the file
with AICSImage and records its shape.  The shape the library reads from
disk is passed as the dimsOnDisk argument. -/
def Image.setFileName (img : Image) (f : String) (dimsOnDisk : ℕ × ℕ × ℕ) : Image :=
  { img with filename := some f, imgLoaded := true, imageDim := some dimsOnDisk }

/-- A raised Python exception, tagged with the check that produced it. -/
inductive PyErr where
  | valueError (tag : String)
deriving DecidableEq, Repr

/-- State of class SetOfImages (lines 752-759): the shared SamplingRate,
the dimension of the first image, and the persisted items. -/
structure SetOfImages where
  samplingRate : Option (ℚ × ℚ) := none
  dim : Option (ℕ × ℕ × ℕ) := none
  items : List Image := []
deriving DecidableEq, Repr

/-- SetOfImages.getSamplingRate (lines 823-824). -/
def SetOfImages.getSamplingRate (s : SetOfImages) : Option (ℚ × ℚ) := s.samplingRate

/-- SetOfImages.getDim (lines 843-851): none while the dimension is unset. -/
def SetOfImages.getDim (s : SetOfImages) : Option (ℕ × ℕ × ℕ) := s.dim

/-- The dimension half of SetOfImages.append (lines 779-789): reject a
None image dimension, reject a mismatch with the stored dimension, store
the dimension of the first image, then Set.append the item. -/
def SetOfImages.appendDimStep (s : SetOfImages) (image : Image) :
    SetOfImages × Option PyErr :=
  match image.getDim with
  | none => (s, some (PyErr.valueError "image dimension is None"))
  | some im_dim =>
    match s.getDim with
    | some dim =>
        if dim ≠ im_dim then (s, some (PyErr.valueError "different dimension"))
        else ({ s with items := s.items ++ [image] }, none)
    | none => ({ s with dim := some im_dim, items := s.items ++ [image] }, none)

/-- SetOfImages.append (lines 761-789).  State changes made before a
later check fails are kept, exactly as in Python: the returned set is the
mutated receiver and the error component is the raised ValueError, if
any.  The possibly mutated image (it inherits the sampling rate of the
set when it has none) is the item stored. -/
def SetOfImages.append (s : SetOfImages) (image : Image) :
    SetOfImages × Option PyErr :=
  if image.isEmpty then (s, some (PyErr.valueError "image is empty"))
  else
    match s.getSamplingRate, image.getSamplingRate with
    | some sr, none => s.appendDimStep (image.setSamplingRate sr)
    | some sr, some im_sr =>
        if sr ≠ im_sr then (s, some (PyErr.valueError "different sampling rate"))
        else s.appendDimStep image
    | none, some im_sr => SetOfImages.appendDimStep { s with samplingRate := some im_sr } image
    | none, none => s.appendDimStep image

/-- The per-item invariant the claim is about: every stored image carries
the dimension of the set, and every stored image that carries a sampling
rate carries the sampling rate of the set. -/
def SetOfImages.invariant (s : SetOfImages) : Prop :=
  ∀ img ∈ s.items,
    img.getDim = s.dim ∧ img.getDim ≠ none ∧
    (img.samplingRate = none ∨ img.samplingRate = s.samplingRate)

/-! ## Embedding of spfluo/objects/data.py : FluoImage, Coordinate3D and
SetOfCoordinates3D

The host object-relational mapper (pyworkflow) persists each item with
one column per scalar attribute; iterItems(where=...) filters the rows
of the set on the named persisted attribute.  A where clause naming an
attribute the item class does not persist matches no row (the concrete
SQLite mapper raises on the missing column; either way no row with a
matching _imageId is produced).  Set indexing by an attribute query,
used by _getFluoImage on the precedents, returns the first item whose
attribute has the given value, and raises when there is none.
-/

/-- State of class FluoImage (src/spfluo/objects/data.py lines 467-499):
an Image plus the optional PSF model and the imgId string scalar. -/
structure FluoImage extends Image where
  psfModel : Option Image := none
  imgId : Option String := none
deriving DecidableEq, Repr

/-- FluoImage.getImgId (lines 482-486). -/
def FluoImage.getImgId (im : FluoImage) : Option String := im.imgId

/-- State of class Coordinate3D (lines 501-513): box size, the non-stored
pointer to a FluoImage, the transform, the group id, and the persisted
_imageId string scalar. -/
structure Coordinate3D where
  boxSize : ℤ := 0
  imagePointer : Option FluoImage := none
  transform : Transform := ⟨eye4⟩
  groupId : ℤ := 0
  imageId : Option String := none
deriving DecidableEq, Repr

/-- Coordinate3D.getImageId (lines 548-549). -/
def Coordinate3D.getImageId (c : Coordinate3D) : Option String := c.imageId

/-- Coordinate3D.setFluoImage (lines 544-546). -/
def Coordinate3D.setFluoImage (c : Coordinate3D) (im : FluoImage) : Coordinate3D :=
  { c with imagePointer := some im }

/-- The string-typed persisted attributes of a Coordinate3D row, by
column name: only _imageId is set in Coordinate3D (line 513). -/
def Coordinate3D.strAttrs (c : Coordinate3D) : List (String × Option String) :=
  [("_imageId", c.imageId)]

/-- A where clause as built by iterCoordinates: the constant 1, or a
comparison of one named column with one value. -/
inductive WhereClause where
  | all
  | fieldEq (attr : String) (value : Option String)
deriving DecidableEq, Repr

/-- Row filtering of the host mapper: the named column of the row is
compared with the value; a column the row does not have matches nothing. -/
def matchesWhere (w : WhereClause) (c : Coordinate3D) : Bool :=
  match w with
  | WhereClause.all => true
  | WhereClause.fieldEq attr v =>
    match c.strAttrs.lookup attr with
    | some v₂ => decide (v₂ = v)
    | none => false

/-- State of class SetOfCoordinates3D (lines 921-932): box size, sampling
rate, the pointer to the precedent SetOfFluoImages, the private _images
cache (initially None and never reassigned), and the persisted items. -/
structure SetOfCoordinates3D where
  boxSize : Option ℤ := none
  samplingRate : Option (ℚ × ℚ) := none
  precedents : List FluoImage := []
  images : Option (List (Option String × FluoImage)) := none
  items : List Coordinate3D := []
deriving DecidableEq, Repr

/-- Set.iterItems(where=..., orderBy='id') of the host mapper: the
persisted rows that match the where clause, in insertion order. -/
def SetOfCoordinates3D.iterItems (s : SetOfCoordinates3D) (w : WhereClause) :
    List Coordinate3D :=
  s.items.filter (matchesWhere w)

/-- SetOfCoordinates3D._getFluoImage (lines 1003-1015): consult the
_images cache (an absent cache reads as empty, lines 1005-1007 and
1017-1022), otherwise index the precedents by the _imgId attribute;
indexing raises when no precedent matches. -/
def SetOfCoordinates3D.getFluoImage (s : SetOfCoordinates3D) (imgId : Option String) :
    Except PyErr FluoImage :=
  let imgs := s.images.getD []
  match imgs.lookup imgId with
  | some im => Except.ok im
  | none =>
    match s.precedents.find? (fun im => im.imgId == imgId) with
    | some im => Except.ok im
    | none => Except.error (PyErr.valueError "no precedent image with this imgId")

/-- SetOfCoordinates3D._associateImage (lines 1079-1080): relink the
coordinate to the precedent found from its stored image id. -/
def SetOfCoordinates3D.associateImage (s : SetOfCoordinates3D) (c : Coordinate3D) :
    Except PyErr Coordinate3D :=
  match s.getFluoImage c.getImageId with
  | Except.ok im => Except.ok (c.setFluoImage im)
  | Except.error e => Except.error e

/-- SetOfCoordinates3D.iterCoordinates (lines 962-1001): image None gives
the where clause 1; a FluoImage gives the clause comparing the column
named _imgId (sic) with the imgId of the image; each yielded coordinate
is relinked by _associateImage. -/
def SetOfCoordinates3D.iterCoordinates (s : SetOfCoordinates3D)
    (image : Option FluoImage) : Except PyErr (List Coordinate3D) :=
  let coordWhere : WhereClause :=
    match image with
    | none => WhereClause.all
    | some im => WhereClause.fieldEq "_imgId" im.getImgId
  (s.iterItems coordWhere).mapM s.associateImage

/-- A concrete precedent image with imgId im1. -/
def exImage : FluoImage :=
  { filename := some "/data/im1.tif", imgLoaded := true,
    imageDim := some (1, 2, 3), imgId := some "im1" }

/-- A concrete coordinate whose stored image id is im1. -/
def exCoord : Coordinate3D := { imageId := some "im1" }

/-- A concrete set holding exCoord with exImage among the precedents. -/
def exCoordSet : SetOfCoordinates3D :=
  { precedents := [exImage], items := [exCoord] }

/-! ## Embedding of spfluo/protocols/protocol_import.py

The path helpers of the Python standard library and of the host
(os.path.basename, str.split, str.replace, posixpath.splitext and
posixpath.dirname, pyworkflow commonPath) are embedded below following
their documented semantics, since the repository code composes them.
-/

/-- The characters after the last occurrence of c (all of them when c
does not occur): the fold restarts on every occurrence. -/
def afterLastChar (c : Char) (cs : List Char) : List Char :=
  cs.foldl (fun acc x => if x == c then [] else acc ++ [x]) []

/-- os.path.basename: the part after the last slash. -/
def pyBasename (p : String) : String := String.mk (afterLastChar '/' p.toList)

/-- str.split on a colon, first component: everything before the first
colon (the whole string when there is none). -/
def colonHead (p : String) : String :=
  String.mk (p.toList.takeWhile (fun x => !(x == ':')))

/-- str.replace on character lists: replace the non-overlapping
occurrences of old, left to right.  The fuel (at least the length of the
input, since every step consumes at least one character when old is
nonempty) makes the recursion structural. -/
def replaceCharsFuel : ℕ → List Char → List Char → List Char → List Char
  | 0, _, _, s => s
  | _ + 1, _, _, [] => []
  | fuel + 1, old, new, c :: rest =>
    if old.isPrefixOf (c :: rest) then
      new ++ replaceCharsFuel fuel old new ((c :: rest).drop old.length)
    else
      c :: replaceCharsFuel fuel old new rest

/-- str.replace; the callers below always pass a nonempty old string. -/
def pyReplace (s old new : String) : String :=
  if old.toList.isEmpty then s
  else String.mk (replaceCharsFuel s.toList.length old.toList new.toList s.toList)

/-- The first component of re.split on the wildcard characters, as in
_getUniqueFileName (src/spfluo/protocols/protocol_import.py line 19):
everything before the first of the four wildcard characters. -/
def wildcardFreePrefixOf (pattern : String) : String :=
  String.mk (pattern.toList.takeWhile
    (fun c => !(c == '$' || c == '*' || c == '#' || c == '?')))

/-- Index of the last occurrence of a character. -/
def lastIdxOf (c : Char) (cs : List Char) : Option ℕ :=
  match cs.reverse.findIdx? (fun x => x == c) with
  | some j => some (cs.length - 1 - j)
  | none => none

/-- posixpath.dirname: everything up to the last slash, with trailing
slashes stripped unless the result is all slashes. -/
def pyDirname (p : String) : String :=
  let cs := p.toList
  match lastIdxOf '/' cs with
  | none => ""
  | some i =>
    let head := cs.take (i + 1)
    if head.any (fun x => !(x == '/')) then
      String.mk ((head.reverse.dropWhile (fun x => x == '/')).reverse)
    else String.mk head

/-- posixpath.splitext, first component: the extension starts at the last
dot when that dot lies in the last path component and some character of
that component before it is not a dot; otherwise the path is unchanged.
pwutils.removeExt returns this stem. -/
def removeExt (p : String) : String :=
  let cs := p.toList
  let sepIdx : ℤ := match lastIdxOf '/' cs with | some i => (i : ℤ) | none => -1
  let dotIdx : ℤ := match lastIdxOf '.' cs with | some i => (i : ℤ) | none => -1
  if dotIdx > sepIdx ∧
      ∃ k ∈ List.range cs.length, sepIdx < (k : ℤ) ∧ (k : ℤ) < dotIdx ∧ cs.getD k '.' ≠ '.'
  then String.mk (cs.take dotIdx.toNat)
  else p

/-- _getUniqueFileName (src/spfluo/protocols/protocol_import.py lines
17-22) with filePaths None: the single candidate path is the wildcard
free part of the pattern, commPath is pwutils.commonPath of that
singleton, which per the host (dirname of commonprefix) is its dirname;
the filename then loses the occurrences of that directory followed by a
slash and its remaining slashes become underscores. -/
def getUniqueFileName (pattern filename : String) : String :=
  let commPath := pyDirname (wildcardFreePrefixOf pattern)
  pyReplace (pyReplace filename (commPath ++ "/") "") "/" "_"

/-- The name first tried for a matched file (line 86):
basename(fileName).split(colon)[0]. -/
def strippedBasename (f : String) : String := colonHead (pyBasename f)

/-- What importFluoImagesStep records for one imported image: the
filename linked under the extra path and the imgId set on the image. -/
structure ImportRecord where
  newFileName : String
  imgId : String
deriving DecidableEq, Repr

/-- The filename bookkeeping of ProtImportFluoImages.importFluoImagesStep
(src/spfluo/protocols/protocol_import.py lines 68-101): for each matched
file, the candidate name is the colon-stripped basename; when that name
was already recorded it is replaced by _getUniqueFileName of the
colon-stripped full path; the final name enters fileNameList and the
imgId of the image is removeExt of it. -/
def importLoop (pattern : String) : List String → List String → List ImportRecord
  | [], _ => []
  | fileName :: rest, fileNameList =>
    let name0 := strippedBasename fileName
    let newFileName :=
      if name0 ∈ fileNameList then getUniqueFileName pattern (colonHead fileName)
      else name0
    { newFileName := newFileName, imgId := removeExt newFileName } ::
      importLoop pattern rest (fileNameList ++ [newFileName])

/-- importFluoImagesStep starts with an empty fileNameList (line 68). -/
def importFluoImagesStep (pattern : String) (files : List String) : List ImportRecord :=
  importLoop pattern files []

/-! ## Embedding of ProtImportFluoImages._summary
(src/spfluo/protocols/protocol_import.py lines 112-128)

Each accessor the try block calls may itself raise; the environment
carries each one as a value or an exception.  The two-decimal float
formatting of the sampling-rate line is abstracted as toString of the
exact rational values.
-/

/-- The accessors read inside the try block of _summary, each either a
value or a raised exception: self._hasOutput(), self._getTomMessage(),
self.getPattern(), self.sr_xy.get() and self.sr_z.get() (the two scalars
hold None when unset). -/
structure SummaryEnv where
  hasOutput : Except PyErr Bool
  tomMessage : Except PyErr String
  pattern : Except PyErr String
  srXY : Except PyErr (Option ℚ)
  srZ : Except PyErr (Option ℚ)
deriving Repr

/-- Python truthiness of an optional float: None and 0.0 are falsy. -/
def truthyQ : Option ℚ → Bool
  | none => false
  | some q => decide (q ≠ 0)

/-- The first summary line (line 117). -/
def importedFromLine (msg pat : String) : String := msg ++ " imported from:\n" ++ pat

/-- The second summary line (lines 120-123), with the float formatting
abstracted exactly. -/
def samplingRateLine (xy z : ℚ) : String :=
  "Sampling rate: *" ++ toString xy ++ "x" ++ toString z ++ "* (A/px)"

/-- The try block of _summary, step by step in source order: the list
built so far is paired with the first exception raised, if any. -/
def summaryBody (env : SummaryEnv) : List String × Option PyErr :=
  match env.hasOutput with
  | Except.error e => ([], some e)
  | Except.ok false => ([], none)
  | Except.ok true =>
    match env.tomMessage with
    | Except.error e => ([], some e)
    | Except.ok msg =>
      match env.pattern with
      | Except.error e => ([], some e)
      | Except.ok pat =>
        let line1 := importedFromLine msg pat
        match env.srXY with
        | Except.error e => ([line1], some e)
        | Except.ok oxy =>
          if truthyQ oxy then
            match env.srZ with
            | Except.error e => ([line1], some e)
            | Except.ok oz =>
              if truthyQ oz then
                ([line1, samplingRateLine (oxy.getD 0) (oz.getD 0)], none)
              else ([line1], none)
          else ([line1], none)

/-- _summary itself: the except clause catches the exception, prints it,
and the summary assembled so far is returned. -/
def pySummary (env : SummaryEnv) : List String := (summaryBody env).1

/-- The same body without the except clause: the exception propagates. -/
def summaryNoHandler (env : SummaryEnv) : Except PyErr (List String) :=
  match summaryBody env with
  | (l, none) => Except.ok l
  | (_, some e) => Except.error e

/-! ## Embedding of ProtSingleParticlePickingTrain.prepareStep
(src/singleparticle/protocols/protocol_picking_train.py lines 190-211)
-/

/-- One annotation row collected at lines 191-194:
(imgId + .tif, running index, x, y, z). -/
abbrev CsvRow := String × ℕ × ℚ × ℚ × ℚ

/-- Modelled from the spec: singleparticle.convert.write_csv is not under
src/ (only its caller is); per the spec (CSV serialization), it writes
exactly the rows it is given to the named CSV file, one per annotation,
which is embedded as the sequence of rows written. -/
def write_csv (rows : List CsvRow) : List CsvRow := rows

/-- The split of prepareStep (lines 200-211): after random.shuffle the
annotation list (the argument here is that already shuffled list),
i = int(train_val_split * len(annotations)) and the slices
annotations[:i] and annotations[i:] go to the train and val CSV files.
Python int() truncates toward zero, which on the nonnegative products
considered here is the floor. -/
def prepareStepCSVs (split : ℚ) (shuffled : List CsvRow) : List CsvRow × List CsvRow :=
  let i := (Int.floor (split * shuffled.length)).toNat
  (write_csv (shuffled.take i), write_csv (shuffled.drop i))

/-- A concrete shuffled annotation list with three rows. -/
def exRows : List CsvRow :=
  [("a.tif", 0, 0, 0, 0), ("a.tif", 1, 1, 2, 3), ("b.tif", 2, 4, 5, 6)]

/-! ## Concurrency-relevant effects of the launch sites

Each function of the repository that launches or touches a subprocess or
thread is embedded as the sequence of concurrency-relevant effects it
performs, read off its source line by line.  Waiting on, joining,
reading a result queue of, or polling the liveness of a launched process
or thread are the coordinating effects the claim denies.
-/

/-- Concurrency-relevant effects appearing in the sources. -/
inductive Effect where
  | launchViewerProcess
  | startThread
  | scheduleAfter
  | processJoin
  | queueGet
  | pollAlive
  | printMsg (s : String)
  | defineOutputs
deriving DecidableEq, Repr

/-- ProtSingleParticleManualAbInitio.reconstructStep
(src/singleparticle/protocols/protocol_manual_ab_initio.py lines 63-81):
view.show() launches the napari viewer process, then the step prints,
joins the process, prints again, blocks reading its queue and defines
the outputs from the item read. -/
def reconstructStepTrace : List Effect :=
  [Effect.launchViewerProcess,
   Effect.printMsg "wait process to stop...",
   Effect.processJoin,
   Effect.printMsg "process finished. getting the queue...",
   Effect.queueGet,
   Effect.defineOutputs]

/-- NapariDialog.refresh_gui (src/spfluo/viewers/views_tkinter_tree.py
lines 90-102): recounts the csv lines, polls self.proc.is_alive(), and
reschedules itself with after(1000, ...). -/
def refreshGuiTrace : List Effect :=
  [Effect.pollAlive, Effect.scheduleAfter]

/-- NapariDialog.doubleClickOnFluoimage (lines 104-109): starts the
napari thread and schedules refresh_gui. -/
def doubleClickTrace : List Effect :=
  [Effect.startThread, Effect.scheduleAfter]

/-- ImageView.show (src/singleparticle/viewers/napari_viewers.py lines
107-111): starts the napari thread and returns. -/
def imageViewShowTrace : List Effect := [Effect.startThread]

/-- SetOfImagesView.show (lines 59-63). -/
def setOfImagesViewShowTrace : List Effect := [Effect.startThread]

/-- SetOfParticlesView.show (lines 84-88). -/
def setOfParticlesViewShowTrace : List Effect := [Effect.startThread]

/-- SetOfCoordinates3DDialog.doubleClickOnFluoimage (lines 214-227):
builds the per-image coordinate set and starts the napari thread. -/
def coordsDialogDoubleClickTrace : List Effect := [Effect.startThread]

/-- The trace is fire-and-forget: it neither joins, nor reads the queue
of, nor polls the liveness of what it launched. -/
def fireAndForget (t : List Effect) : Prop :=
  Effect.processJoin ∉ t ∧ Effect.queueGet ∉ t ∧ Effect.pollAlive ∉ t

instance (t : List Effect) : Decidable (fireAndForget t) := by
  unfold fireAndForget; infer_instance

/-! ## Embedding of Matrix.getObjValue and Matrix._convertValue
(src/spfluo/objects/data.py lines 25-33)

getObjValue serializes the stored 4x4 float matrix with
json.dumps(self._matrix.tolist()); _convertValue parses a string with
np.array(json.loads(value)).astype(np.float64).

A finite float entry is embedded as its Python repr token: a nonempty
string over the digits, the signs, the dot and the letter e.  Per the
Python language reference, repr of a finite float is injective and
float(repr(x)) == x, so equality of tokens is equality of the floats and
parsing a token back is the identity on this embedding; dumps emits each
float through that repr.  json.dumps of the nested lists produced by
ndarray.tolist() writes the tokens inside square brackets with the
default comma-space separator, and json.loads is its inverse grammar,
embedded below as a recursive-descent parser for exactly that fragment;
np.array(...).astype rebuilds the same nested structure. -/

/-- The characters a repr of a finite float consists of. -/
def isNumChar (c : Char) : Bool :=
  c.isDigit || c == '-' || c == '+' || c == '.' || c == 'e'

/-- A float entry embedded as its repr token. -/
def wfTok (t : List Char) : Prop := t ≠ [] ∧ t.all isNumChar = true

instance (t : List Char) : Decidable (wfTok t) := by
  unfold wfTok; infer_instance

/-- Every entry of every row is a float repr token. -/
def wfMat (m : List (List (List Char))) : Prop := ∀ row ∈ m, ∀ t ∈ row, wfTok t

instance (m : List (List (List Char))) : Decidable (wfMat m) := by
  unfold wfMat; infer_instance

/-- The comma-space separator json.dumps puts between list elements. -/
def joinComma : List (List Char) → List Char
  | [] => []
  | [t] => t
  | t :: rest => t ++ ',' :: ' ' :: joinComma rest

/-- json.dumps of one row of floats. -/
def dumpRow (row : List (List Char)) : List Char :=
  '[' :: (joinComma row ++ [']'])

/-- json.dumps of the nested lists of the matrix. -/
def dumpMatrix (m : List (List (List Char))) : List Char :=
  '[' :: (joinComma (m.map dumpRow) ++ [']'])

/-- One level of the json.loads grammar: the numbers of one row,
separated by comma-space, up to the closing bracket.  The fuel is at
least the number of tokens, each step consuming one. -/
def parseRowAux : ℕ → List Char → Option (List (List Char) × List Char)
  | 0, _ => none
  | fuel + 1, s =>
    let tok := s.takeWhile isNumChar
    let rest := s.dropWhile isNumChar
    if tok.isEmpty then none
    else
      match rest with
      | c :: r =>
        if c = ']' then some ([tok], r)
        else if c = ',' then
          match r with
          | c₂ :: r₂ =>
            if c₂ = ' ' then
              match parseRowAux fuel r₂ with
              | some (toks, r₃) => some (tok :: toks, r₃)
              | none => none
            else none
          | [] => none
        else none
      | [] => none

/-- json.loads of one bracketed row of numbers, returning the rest of
the input. -/
def parseRow (s : List Char) : Option (List (List Char) × List Char) :=
  match s with
  | c :: r =>
    if c = '[' then
      match r with
      | c₂ :: r₂ => if c₂ = ']' then some ([], r₂) else parseRowAux (r.length + 1) r
      | [] => none
    else none
  | [] => none

/-- The rows of the matrix, separated by comma-space, up to the closing
bracket. -/
def parseRowsAux : ℕ → List Char → Option (List (List (List Char)) × List Char)
  | 0, _ => none
  | fuel + 1, s =>
    match parseRow s with
    | none => none
    | some (row, rest) =>
      match rest with
      | c :: r =>
        if c = ']' then some ([row], r)
        else if c = ',' then
          match r with
          | c₂ :: r₂ =>
            if c₂ = ' ' then
              match parseRowsAux fuel r₂ with
              | some (rows, r₃) => some (row :: rows, r₃)
              | none => none
            else none
          | [] => none
        else none
      | [] => none

/-- json.loads of the whole serialized matrix: a bracketed list of rows
followed by the end of the input. -/
def parseMatrix (s : List Char) : Option (List (List (List Char))) :=
  match s with
  | c :: r =>
    if c = '[' then
      match r with
      | c₂ :: r₂ =>
        if c₂ = ']' then (if r₂.isEmpty then some [] else none)
        else
          match parseRowsAux (r.length + 1) r with
          | some (rows, rest) => if rest.isEmpty then some rows else none
          | none => none
      | [] => none
    else none
  | [] => none

/-- Matrix.getObjValue (lines 31-33): the json.dumps serialization of
the stored matrix. -/
def Matrix.getObjValue (m : List (List (List Char))) : String :=
  String.mk (dumpMatrix m)

/-- Matrix._convertValue (lines 25-29): json.loads of the string, turned
back into the stored nested structure by np.array(...).astype. -/
def Matrix.convertValue (value : String) : Option (List (List (List Char))) :=
  parseMatrix value.toList

/-- A concrete 4x4 identity matrix of float repr tokens (1.0 and 0.0). -/
def exTokMat : List (List (List Char)) :=
  [[['1', '.', '0'], ['0', '.', '0'], ['0', '.', '0'], ['0', '.', '0']],
   [['0', '.', '0'], ['1', '.', '0'], ['0', '.', '0'], ['0', '.', '0']],
   [['0', '.', '0'], ['0', '.', '0'], ['1', '.', '0'], ['0', '.', '0']],
   [['0', '.', '0'], ['0', '.', '0'], ['0', '.', '0'], ['1', '.', '0']]]

end SpfluoVerif

namespace SpfluoVerif

/-! ## Theorems -/

/-- C1: the claim states that for every one of the six recognized type
strings, Transform.create returns a standard homogeneous rotation.  The
code contradicts this at the failing input rotY90c: the returned matrix
(transcribed verbatim from src/spfluo/objects/data.py lines 150-154) has
first column (1, 0, 1), so the 3x3 block R has (R transposed times R) at
entry (0,0) equal to 2, not 1, and is no rotation.  The X and Z matrices
are genuine rotations, which shows the stray 1 in the first row of both
Y matrices is a slip. -/
theorem C1_rotY90c_not_a_rotation :
    Transform.create Transform.ROT_Y_90_CLOCKWISE
        = Except.ok ⟨[[1, 0, -1, 0], [0, 1, 0, 0], [1, 0, 0, 0], [0, 0, 0, 1]]⟩ ∧
    colDot [[1, 0, -1, 0], [0, 1, 0, 0], [1, 0, 0, 0], [0, 0, 0, 1]] 0 0 = 2 ∧
    ¬ isStdHomRotation [[1, 0, -1, 0], [0, 1, 0, 0], [1, 0, 0, 0], [0, 0, 0, 1]] ∧
    createGivesRotation Transform.ROT_Y_90_CLOCKWISE = false ∧
    createGivesRotation Transform.ROT_Y_90_COUNTERCLOCKWISE = false ∧
    createGivesRotation Transform.ROT_X_90_CLOCKWISE = true ∧
    createGivesRotation Transform.ROT_X_90_COUNTERCLOCKWISE = true ∧
    createGivesRotation Transform.ROT_Z_90_CLOCKWISE = true ∧
    createGivesRotation Transform.ROT_Z_90_COUNTERCLOCKWISE = true := by
  exact ⟨rfl, by decide, by decide, by decide, by decide, by decide,
         by decide, by decide, by decide⟩

/-- C10: Transform.create succeeds exactly on the six recognized strings;
on every other string it returns the Exception whose message lists the
admitted values, and constructs no Transform. -/
theorem C10_create_recognizes_exactly_six :
    ∀ ty : String,
      (ty ∉ TRANSFORMATION_FACTORY_TYPES →
        Transform.create ty = Except.error notRecognizedMsg) ∧
      (ty ∈ TRANSFORMATION_FACTORY_TYPES → ∃ T, Transform.create ty = Except.ok T) := by
  intro ty
  constructor
  · intro h
    simp only [TRANSFORMATION_FACTORY_TYPES, List.mem_cons, List.not_mem_nil, or_false] at h
    push_neg at h
    obtain ⟨h1, h2, h3, h4, h5, h6⟩ := h
    unfold Transform.create
    rw [if_neg h1, if_neg h4, if_neg h2, if_neg h5, if_neg h3, if_neg h6]
  · intro h
    unfold Transform.create
    simp only [TRANSFORMATION_FACTORY_TYPES, List.mem_cons, List.not_mem_nil, or_false] at h
    rcases h with h | h | h | h | h | h <;> subst h <;> exact ⟨_, rfl⟩

/-- Witness for C10 at the concrete inputs "foo" (not recognized) and
rotX90c (recognized). -/
theorem C10_witness :
    Transform.create "foo" = Except.error notRecognizedMsg ∧
    ∃ T, Transform.create Transform.ROT_X_90_CLOCKWISE = Except.ok T := by
  refine ⟨(C10_create_recognizes_exactly_six "foo").1 (by decide),
          (C10_create_recognizes_exactly_six Transform.ROT_X_90_CLOCKWISE).2 (by decide)⟩

/-- C8: getFileName returns exactly the path given to the last call of
setFileName, whatever the earlier state of the image was, and raises
ValueError on an image whose filename was never set. -/
theorem C8_getFileName_after_setFileName :
    (∀ (img : Image) (f : String) (d : ℕ × ℕ × ℕ),
      (img.setFileName f d).getFileName = Except.ok f) ∧
    Image.initial.getFileName = Except.error "Image has no filename!" := by
  exact ⟨fun img f d => rfl, rfl⟩


/-- Helper: appendDimStep on an image with dimension None raises and
returns the set unchanged. -/
theorem appendDimStep_dimNone (s : SetOfImages) (image : Image)
    (him : image.imageDim = none) :
    s.appendDimStep image = (s, some (PyErr.valueError "image dimension is None")) := by
  unfold SetOfImages.appendDimStep Image.getDim
  rw [him]

/-- Helper: appendDimStep on a dimension mismatch raises and returns the
set unchanged. -/
theorem appendDimStep_dimMismatch (s : SetOfImages) (image : Image)
    (d d₂ : ℕ × ℕ × ℕ) (him : image.imageDim = some d) (hsd : s.dim = some d₂)
    (hne : d₂ ≠ d) :
    s.appendDimStep image = (s, some (PyErr.valueError "different dimension")) := by
  unfold SetOfImages.appendDimStep Image.getDim SetOfImages.getDim
  rw [him, hsd]
  simp [hne]

/-- Helper: on error, appendDimStep returns the set unchanged. -/
theorem appendDimStep_error_eq (s : SetOfImages) (image : Image) (e : PyErr)
    (h : (s.appendDimStep image).snd = some e) :
    (s.appendDimStep image).fst = s := by
  unfold SetOfImages.appendDimStep Image.getDim SetOfImages.getDim at h ⊢
  cases him : image.imageDim with
  | none => rfl
  | some d =>
    rw [him] at h
    cases hsd : s.dim with
    | none => rw [hsd] at h; simp at h
    | some d₂ =>
      rw [hsd] at h
      rcases eq_or_ne d₂ d with hd | hd
      · subst hd; simp at h
      · simp [hd]

/-- Helper: on success, appendDimStep appends exactly the given item. -/
theorem appendDimStep_ok_items (s : SetOfImages) (image : Image)
    (h : (s.appendDimStep image).snd = none) :
    (s.appendDimStep image).fst.items = s.items ++ [image] := by
  unfold SetOfImages.appendDimStep Image.getDim SetOfImages.getDim at h ⊢
  cases him : image.imageDim with
  | none => rw [him] at h; simp at h
  | some d =>
    rw [him] at h
    cases hsd : s.dim with
    | none => rfl
    | some d₂ =>
      rw [hsd] at h
      rcases eq_or_ne d₂ d with hd | hd
      · subst hd; simp
      · simp [hd] at h

/-- Helper: appendDimStep never touches the sampling rate of the set. -/
theorem appendDimStep_samplingRate (s : SetOfImages) (image : Image) :
    (s.appendDimStep image).fst.samplingRate = s.samplingRate := by
  unfold SetOfImages.appendDimStep Image.getDim SetOfImages.getDim
  cases him : image.imageDim with
  | none => rfl
  | some d =>
    cases hsd : s.dim with
    | none => rfl
    | some d₂ =>
      rcases eq_or_ne d₂ d with hd | hd
      · subst hd; simp
      · simp [hd]

/-- Helper: appendDimStep keeps an already fixed dimension. -/
theorem appendDimStep_dim_fixed (s : SetOfImages) (image : Image) (d : ℕ × ℕ × ℕ)
    (hd : s.dim = some d) : (s.appendDimStep image).fst.dim = some d := by
  unfold SetOfImages.appendDimStep Image.getDim SetOfImages.getDim
  cases him : image.imageDim with
  | none => exact hd
  | some d₁ =>
    rw [hd]
    rcases eq_or_ne d d₁ with hdd | hdd
    · subst hdd; simp [hd]
    · simp [hdd, hd]

/-- Helper: on success, the resulting dimension of the set equals the
dimension of the image (in particular a first append fixes it). -/
theorem appendDimStep_ok_dim (s : SetOfImages) (image : Image)
    (h : (s.appendDimStep image).snd = none) :
    (s.appendDimStep image).fst.dim = image.getDim ∧ image.getDim ≠ none := by
  unfold SetOfImages.appendDimStep Image.getDim SetOfImages.getDim at h ⊢
  cases him : image.imageDim with
  | none => rw [him] at h; simp at h
  | some d =>
    rw [him] at h
    cases hsd : s.dim with
    | none => exact ⟨rfl, by simp⟩
    | some d₂ =>
      rw [hsd] at h
      rcases eq_or_ne d₂ d with hd | hd
      · subst hd; simp [hsd]
      · simp [hd] at h

/-- Helper: appendDimStep preserves the per-item invariant whenever the
incoming image either has no sampling rate or agrees with the set. -/
theorem appendDimStep_invariant (s : SetOfImages) (image : Image)
    (hinv : s.invariant)
    (hsr : image.samplingRate = none ∨ image.samplingRate = s.samplingRate) :
    (s.appendDimStep image).fst.invariant := by
  cases hres : (s.appendDimStep image).snd with
  | some e => rw [appendDimStep_error_eq s image e hres]; exact hinv
  | none =>
    intro img hmem
    rw [appendDimStep_ok_items s image hres] at hmem
    have hdim := appendDimStep_ok_dim s image hres
    rcases List.mem_append.mp hmem with hold | hnew
    · have h := hinv img hold
      cases hsd : s.dim with
      | none =>
        rw [hsd] at h
        exact absurd h.1 h.2.1
      | some d =>
        have hfix := appendDimStep_dim_fixed s image d hsd
        refine ⟨?_, h.2.1, ?_⟩
        · rw [h.1, hsd, hfix]
        · rw [appendDimStep_samplingRate]
          exact h.2.2
    · have himg : img = image := List.mem_singleton.mp hnew
      subst himg
      refine ⟨hdim.1.symm, hdim.2, ?_⟩
      rw [appendDimStep_samplingRate]
      exact hsr

/-- Helper: raising the sampling rate of a set from None to a value keeps
the per-item invariant (all stored items then carry no sampling rate). -/
theorem invariant_set_sr (s : SetOfImages) (x : ℚ × ℚ)
    (hinv : s.invariant) (hs : s.samplingRate = none) :
    SetOfImages.invariant { s with samplingRate := some x } := by
  intro img hmem
  have h := hinv img hmem
  refine ⟨h.1, h.2.1, Or.inl ?_⟩
  rcases h.2.2 with h0 | h0
  · exact h0
  · rw [h0, hs]

/-- Helper: append on an empty image raises at once. -/
theorem append_empty (s : SetOfImages) (image : Image) (h : image.isEmpty = true) :
    s.append image = (s, some (PyErr.valueError "image is empty")) := by
  unfold SetOfImages.append
  simp [h]

/-- Helper: append when neither the set nor the image has a sampling rate. -/
theorem append_nn (s : SetOfImages) (image : Image) (h : image.isEmpty = false)
    (hs : s.samplingRate = none) (hi : image.samplingRate = none) :
    s.append image = s.appendDimStep image := by
  unfold SetOfImages.append SetOfImages.getSamplingRate Image.getSamplingRate
  simp [h, hs, hi]

/-- Helper: append when only the image has a sampling rate: the set adopts it. -/
theorem append_ns (s : SetOfImages) (image : Image) (im_sr : ℚ × ℚ)
    (h : image.isEmpty = false)
    (hs : s.samplingRate = none) (hi : image.samplingRate = some im_sr) :
    s.append image = SetOfImages.appendDimStep { s with samplingRate := some im_sr } image := by
  unfold SetOfImages.append SetOfImages.getSamplingRate Image.getSamplingRate
  simp [h, hs, hi]

/-- Helper: append when only the set has a sampling rate: the image inherits it. -/
theorem append_sn (s : SetOfImages) (image : Image) (sr : ℚ × ℚ)
    (h : image.isEmpty = false)
    (hs : s.samplingRate = some sr) (hi : image.samplingRate = none) :
    s.append image = s.appendDimStep (image.setSamplingRate sr) := by
  unfold SetOfImages.append SetOfImages.getSamplingRate Image.getSamplingRate
  simp [h, hs, hi]

/-- Helper: append when both sampling rates agree. -/
theorem append_ss_eq (s : SetOfImages) (image : Image) (sr : ℚ × ℚ)
    (h : image.isEmpty = false)
    (hs : s.samplingRate = some sr) (hi : image.samplingRate = some sr) :
    s.append image = s.appendDimStep image := by
  unfold SetOfImages.append SetOfImages.getSamplingRate Image.getSamplingRate
  simp [h, hs, hi]

/-- Helper: append when both sampling rates exist and disagree raises. -/
theorem append_ss_ne (s : SetOfImages) (image : Image) (sr im_sr : ℚ × ℚ)
    (h : image.isEmpty = false)
    (hs : s.samplingRate = some sr) (hi : image.samplingRate = some im_sr)
    (hne : sr ≠ im_sr) :
    s.append image = (s, some (PyErr.valueError "different sampling rate")) := by
  unfold SetOfImages.append SetOfImages.getSamplingRate Image.getSamplingRate
  simp [h, hs, hi, hne]

/-- C4 counterexample: the claim as stated is false on the code.  A first
image carrying no sampling rate is appended successfully; a second image
carrying the sampling rate (1, 2) is then appended successfully as well.
Both appends raise nothing, yet the resulting set holds two images whose
sampling rates differ (none versus (1, 2)); the images of the set do not
share one sampling rate, and the sampling rate of the set was not fixed
by the first appended image: it changes from none to (1, 2) at the
second append. -/
theorem C4_counterexample :
    (let r1 := SetOfImages.append {} { imgLoaded := true, imageDim := some (4, 5, 6) }
     let r2 := SetOfImages.append r1.fst
       { imgLoaded := true, samplingRate := some (1, 2), imageDim := some (4, 5, 6) }
     r1.snd = none ∧ r2.snd = none ∧
     r1.fst.samplingRate = none ∧ r2.fst.samplingRate = some (1, 2) ∧
     r2.fst.items.map Image.samplingRate = [none, some (1, 2)]) := by
  decide

/-- C4 amended: SetOfImages.append preserves the invariant that every
stored image carries the dimension of the set and that every stored
image carrying a sampling rate carries the sampling rate of the set (an
image appended while neither it nor the set had a sampling rate stays
without one); appending an empty image, an image whose dimension is None
or differs from the dimension of the set, or an image whose sampling
rate conflicts with that of the set raises ValueError without adding the
image; a successful append on a set whose sampling rate is set stores an
image carrying that sampling rate; a successful append makes the
dimension of the set that of the image (so the first successful append
fixes it) and an already fixed dimension never changes. -/
theorem C4_append_invariant :
    ∀ (s : SetOfImages) (image : Image),
      s.invariant →
      ((s.append image).fst.invariant ∧
       (∀ e, (s.append image).snd = some e → (s.append image).fst.items = s.items) ∧
       (image.isEmpty = true → (s.append image).snd ≠ none) ∧
       (image.isEmpty = false → image.imageDim = none → (s.append image).snd ≠ none) ∧
       (∀ d d₂, image.isEmpty = false → image.imageDim = some d → s.dim = some d₂ →
         d₂ ≠ d → (s.append image).snd ≠ none) ∧
       (∀ sr im_sr, image.isEmpty = false → s.samplingRate = some sr →
         image.samplingRate = some im_sr → sr ≠ im_sr → (s.append image).snd ≠ none) ∧
       (∀ sr, s.samplingRate = some sr → (s.append image).snd = none →
         (s.append image).fst.items = s.items ++ [{ image with samplingRate := some sr }]) ∧
       ((s.append image).snd = none → (s.append image).fst.dim = image.getDim) ∧
       (∀ d, s.dim = some d → (s.append image).fst.dim = some d)) := by
  intro s image hinv
  cases hne : image.isEmpty with
  | true =>
    rw [append_empty s image hne]
    exact ⟨hinv, fun e _ => rfl, by simp, by simp, by simp, by simp,
           by simp, by simp, fun d hd => hd⟩
  | false =>
    rcases hs : s.samplingRate with _ | sr <;> rcases hi : image.samplingRate with _ | im_sr
    · -- neither has a sampling rate
      rw [append_nn s image hne hs hi]
      refine ⟨appendDimStep_invariant s image hinv (Or.inl hi),
              fun e he => by rw [appendDimStep_error_eq s image e he],
              by simp [hne], ?_, ?_, by simp [hs], by simp [hs],
              fun hok => (appendDimStep_ok_dim s image hok).1,
              fun d hd => appendDimStep_dim_fixed s image d hd⟩
      · intro _ hd
        rw [appendDimStep_dimNone s image hd]
        simp
      · intro d d₂ _ hd hsd hdne
        rw [appendDimStep_dimMismatch s image d d₂ hd hsd hdne]
        simp
    · -- only the image has one: the set adopts it
      rw [append_ns s image im_sr hne hs hi]
      refine ⟨appendDimStep_invariant _ image (invariant_set_sr s im_sr hinv hs)
                (Or.inr (by rw [hi])),
              fun e he => by rw [appendDimStep_error_eq _ image e he],
              by simp [hne], ?_, ?_, by simp [hs], by simp [hs],
              fun hok => (appendDimStep_ok_dim _ image hok).1,
              fun d hd => appendDimStep_dim_fixed _ image d hd⟩
      · intro _ hd
        rw [appendDimStep_dimNone _ image hd]
        simp
      · intro d d₂ _ hd hsd hdne
        rw [appendDimStep_dimMismatch { s with samplingRate := some im_sr } image d d₂ hd hsd hdne]
        simp
    · -- only the set has one: the image inherits it
      rw [append_sn s image sr hne hs hi]
      refine ⟨appendDimStep_invariant s _ hinv (Or.inr (by simp [Image.setSamplingRate, hs])),
              fun e he => by rw [appendDimStep_error_eq s _ e he],
              by simp [hne], ?_, ?_, by simp [hi], ?_,
              fun hok => (appendDimStep_ok_dim s _ hok).1,
              fun d hd => appendDimStep_dim_fixed s _ d hd⟩
      · intro _ hd
        rw [appendDimStep_dimNone s _ (show (image.setSamplingRate sr).imageDim = none from hd)]
        simp
      · intro d d₂ _ hd hsd hdne
        rw [appendDimStep_dimMismatch s _ d d₂
              (show (image.setSamplingRate sr).imageDim = some d from hd) hsd hdne]
        simp
      · intro sr₂ hs₂ hok
        have hsr₂ : sr₂ = sr := (Option.some.inj hs₂).symm
        subst hsr₂
        exact appendDimStep_ok_items s (image.setSamplingRate sr₂) hok
    · -- both have one: they must agree
      rcases eq_or_ne sr im_sr with heq | hne2
      · subst heq
        rw [append_ss_eq s image sr hne hs hi]
        refine ⟨appendDimStep_invariant s image hinv (Or.inr (hi.trans hs.symm)),
                fun e he => by rw [appendDimStep_error_eq s image e he],
                by simp [hne], ?_, ?_, ?_, ?_,
                fun hok => (appendDimStep_ok_dim s image hok).1,
                fun d hd => appendDimStep_dim_fixed s image d hd⟩
        · intro _ hd
          rw [appendDimStep_dimNone s image hd]
          simp
        · intro d d₂ _ hd hsd hdne
          rw [appendDimStep_dimMismatch s image d d₂ hd hsd hdne]
          simp
        · intro a b _ ha hb hab
          exact absurd rfl (by
            have h1 : a = sr := (Option.some.inj ha).symm
            have h2 : b = sr := (Option.some.inj hb).symm
            subst h1; subst h2; exact hab)
        · intro sr₂ hs₂ hok
          have hsr₂ : sr₂ = sr := (Option.some.inj hs₂).symm
          subst hsr₂
          have himg : ({ image with samplingRate := some sr₂ } : Image) = image := by
            obtain ⟨f, il, srf, t, o, idim⟩ := image
            simp only at hi
            rw [hi]
          rw [himg]
          exact appendDimStep_ok_items s image hok
      · rw [append_ss_ne s image sr im_sr hne hs hi hne2]
        refine ⟨hinv, fun e _ => rfl, by simp, by simp, by simp, by simp,
                by simp, by simp, fun d hd => hd⟩

/-- Witness for C4 at a concrete set and image: an empty set, then an
image with data, dimension (4, 5, 6) and sampling rate (1, 2); the append
succeeds, the invariant holds afterwards, and the dimension is fixed. -/
theorem C4_witness :
    (SetOfImages.invariant {} ∧
     (SetOfImages.append {} { imgLoaded := true, samplingRate := some (1, 2),
                              imageDim := some (4, 5, 6) }).fst.invariant) := by
  have hinv : SetOfImages.invariant {} := by intro img hmem; simp at hmem
  exact ⟨hinv, (C4_append_invariant {}
    { imgLoaded := true, samplingRate := some (1, 2), imageDim := some (4, 5, 6) } hinv).1⟩

/-- C2: the claim says iterCoordinates(image) yields exactly the
coordinates whose stored image id equals the imgId of the image, each
relinked to the matching precedent.  The code contradicts the filtering
part at this failing input: the set holds one coordinate whose stored
image id (im1) equals the imgId of the queried image, yet
iterCoordinates(image) yields nothing, because the where clause compares
the column _imgId while a Coordinate3D persists the id under _imageId
(Coordinate3D.IMAGE_ID_ATTR).  Iterating with image None does cover the
whole set and does relink the coordinate to the precedent whose imgId
equals the stored id, which shows the filtering attribute is the slip. -/
theorem C2_iterCoordinates_filter_mismatch :
    exCoord.getImageId = exImage.getImgId ∧
    exCoordSet.iterCoordinates (some exImage) = Except.ok [] ∧
    exCoordSet.iterCoordinates none
      = Except.ok [{ exCoord with imagePointer := some exImage }] := by
  refine ⟨rfl, rfl, rfl⟩

/-- Helper: every record of the import loop has imgId equal to the
extension-stripped recorded filename, whatever the accumulator. -/
theorem importLoop_imgId (pattern : String) :
    ∀ (files acc : List String), ∀ r ∈ importLoop pattern files acc,
      r.imgId = removeExt r.newFileName := by
  intro files
  induction files with
  | nil => intro acc r hr; simp [importLoop] at hr
  | cons f rest ih =>
    intro acc r hr
    simp only [importLoop] at hr
    rcases List.mem_cons.mp hr with h | h
    · subst h; rfl
    · exact ih _ r h

/-- Helper: when the stripped basenames are pairwise distinct and none is
already in the accumulator, no replacement fires and the recorded names
are exactly the stripped basenames. -/
theorem importLoop_names (pattern : String) :
    ∀ (files acc : List String),
      (files.map strippedBasename).Nodup →
      (∀ f ∈ files, strippedBasename f ∉ acc) →
      (importLoop pattern files acc).map ImportRecord.newFileName
        = files.map strippedBasename := by
  intro files
  induction files with
  | nil => intro acc _ _; rfl
  | cons f rest ih =>
    intro acc hnd hacc
    have hnotin : strippedBasename f ∉ acc := hacc f (List.mem_cons_self f rest)
    have hnd' : (strippedBasename f :: rest.map strippedBasename).Nodup := by
      simpa using hnd
    have hnd2 := List.nodup_cons.mp hnd'
    simp only [importLoop, if_neg hnotin, List.map_cons]
    refine congrArg (strippedBasename f :: ·) ?_
    refine ih (acc ++ [strippedBasename f]) hnd2.2 ?_
    intro g hg
    simp only [List.mem_append, List.mem_singleton]
    push_neg
    refine ⟨hacc g (List.mem_cons_of_mem f hg), ?_⟩
    intro hEq
    exact hnd2.1 (hEq ▸ List.mem_map_of_mem strippedBasename hg)

/-- C6 counterexample: the recorded output filenames need not be pairwise
distinct.  With pattern /data/* and the two distinct matched files
/data/x.tif:a and /data/x.tif (a colon is an ordinary character in a
POSIX filename), the first file is recorded under its colon-stripped
basename x.tif; the second collides, _getUniqueFileName strips the
common path /data/ from /data/x.tif and yields x.tif again, and no
second distinctness check is made, so both images are recorded (and
linked under the extra path) as x.tif. -/
theorem C6_counterexample :
    (importFluoImagesStep "/data/*" ["/data/x.tif:a", "/data/x.tif"]).map
        ImportRecord.newFileName = ["x.tif", "x.tif"] ∧
    ¬ ((importFluoImagesStep "/data/*" ["/data/x.tif:a", "/data/x.tif"]).map
        ImportRecord.newFileName).Nodup ∧
    "/data/x.tif:a" ≠ "/data/x.tif" := by
  refine ⟨rfl, by decide, by decide⟩

/-- C6 amended: each imported image's imgId equals its linked filename
with the extension removed; each file is linked under a name derived
from its colon-stripped basename, the later of two colliding names being
replaced by _getUniqueFileName, which does not guarantee pairwise
distinct recorded filenames in general; when the colon-stripped
basenames of the matched files are pairwise distinct, the recorded
filenames are exactly those basenames and are pairwise distinct. -/
theorem C6_import_names :
    ∀ (pattern : String) (files : List String),
      (∀ r ∈ importFluoImagesStep pattern files, r.imgId = removeExt r.newFileName) ∧
      ((files.map strippedBasename).Nodup →
        (importFluoImagesStep pattern files).map ImportRecord.newFileName
            = files.map strippedBasename ∧
        ((importFluoImagesStep pattern files).map ImportRecord.newFileName).Nodup) := by
  intro pattern files
  constructor
  · exact importLoop_imgId pattern files []
  · intro hnd
    have h : (importFluoImagesStep pattern files).map ImportRecord.newFileName
        = files.map strippedBasename :=
      importLoop_names pattern files [] hnd (by simp)
    exact ⟨h, by rw [h]; exact hnd⟩

/-- Witness for C6 at pattern /data/* and files /data/a.tif, /data/b.tif:
distinct basenames give exactly those recorded names, and the first
record has imgId a, the stem of a.tif. -/
theorem C6_witness :
    (importFluoImagesStep "/data/*" ["/data/a.tif", "/data/b.tif"]).map
        ImportRecord.newFileName = ["a.tif", "b.tif"] ∧
    ImportRecord.imgId { newFileName := "a.tif", imgId := "a" } = removeExt "a.tif" := by
  constructor
  · exact ((C6_import_names "/data/*" ["/data/a.tif", "/data/b.tif"]).2 (by decide)).1.trans
      (by decide)
  · exact (C6_import_names "/data/*" ["/data/a.tif", "/data/b.tif"]).1
      { newFileName := "a.tif", imgId := "a" } (by decide)

/-- C7: _summary never propagates an exception (pySummary is the total
function the except clause produces): on an environment where no
accessor raises it returns the fully assembled list; when some accessor
raises, the exception is swallowed and the list assembled so far is
returned, which is empty or exactly the first line built from the
message and pattern that had been obtained; when no output is defined it
returns the empty list. -/
theorem C7_summary_catches :
    ∀ env : SummaryEnv,
      (env.hasOutput = Except.ok false → pySummary env = []) ∧
      (∀ l, summaryNoHandler env = Except.ok l → pySummary env = l) ∧
      (∀ e, summaryNoHandler env = Except.error e →
        (pySummary env = [] ∨
         ∃ msg pat, env.tomMessage = Except.ok msg ∧ env.pattern = Except.ok pat ∧
           pySummary env = [importedFromLine msg pat])) := by
  intro env
  obtain ⟨ho, tm, pat, sxy, sz⟩ := env
  rcases ho with e0 | b
  · exact ⟨by simp, by simp [summaryNoHandler, summaryBody], fun e _ => Or.inl rfl⟩
  cases b
  case false =>
    refine ⟨fun _ => rfl, ?_, by simp [summaryNoHandler, summaryBody]⟩
    intro l hl
    simp only [summaryNoHandler, summaryBody, Except.ok.injEq] at hl
    exact hl ▸ rfl
  case true =>
    rcases tm with e1 | msg
    · exact ⟨by simp, by simp [summaryNoHandler, summaryBody], fun e _ => Or.inl rfl⟩
    rcases pat with e2 | p
    · exact ⟨by simp, by simp [summaryNoHandler, summaryBody], fun e _ => Or.inl rfl⟩
    rcases sxy with e3 | oxy
    · exact ⟨by simp, by simp [summaryNoHandler, summaryBody],
             fun e _ => Or.inr ⟨msg, p, rfl, rfl, rfl⟩⟩
    by_cases hxy : truthyQ oxy
    · rcases sz with e4 | oz
      · refine ⟨by simp, ?_, fun e _ => Or.inr ⟨msg, p, rfl, rfl, ?_⟩⟩
        · simp [summaryNoHandler, summaryBody, hxy]
        · simp [pySummary, summaryBody, hxy]
      by_cases hz : truthyQ oz
      · refine ⟨by simp, ?_, ?_⟩
        · intro l hl
          simp_all [summaryNoHandler, summaryBody, pySummary]
        · intro e he
          simp [summaryNoHandler, summaryBody, hxy, hz] at he
      · refine ⟨by simp, ?_, ?_⟩
        · intro l hl
          simp_all [summaryNoHandler, summaryBody, pySummary]
        · intro e he
          simp [summaryNoHandler, summaryBody, hxy, hz] at he
    · refine ⟨by simp, ?_, ?_⟩
      · intro l hl
        simp_all [summaryNoHandler, summaryBody, pySummary]
      · intro e he
        simp [summaryNoHandler, summaryBody, hxy] at he

/-- Witness for C7 at two concrete environments: one with no output
defined (empty summary), one where reading sr_xy raises after the first
line was assembled (the first line alone is returned, the exception is
not propagated). -/
theorem C7_witness :
    pySummary { hasOutput := Except.ok false, tomMessage := Except.ok "FluoImages",
                pattern := Except.ok "/data/*", srXY := Except.ok (some 1),
                srZ := Except.ok (some 2) } = [] ∧
    pySummary { hasOutput := Except.ok true, tomMessage := Except.ok "FluoImages",
                pattern := Except.ok "/data/*",
                srXY := Except.error (PyErr.valueError "boom"),
                srZ := Except.ok (some 2) }
      = [importedFromLine "FluoImages" "/data/*"] := by
  constructor
  · exact (C7_summary_catches
      { hasOutput := Except.ok false, tomMessage := Except.ok "FluoImages",
        pattern := Except.ok "/data/*", srXY := Except.ok (some 1),
        srZ := Except.ok (some 2) }).1 rfl
  · have h := (C7_summary_catches
      { hasOutput := Except.ok true, tomMessage := Except.ok "FluoImages",
        pattern := Except.ok "/data/*",
        srXY := Except.error (PyErr.valueError "boom"),
        srZ := Except.ok (some 2) }).2.2 (PyErr.valueError "boom") rfl
    rcases h with h | ⟨msg, p2, hm, hp, hs⟩
    · exact absurd h (by decide)
    · rw [hs, Except.ok.inj hm, Except.ok.inj hp]

/-- C5: the annotations (after the in-place shuffle, a permutation) are
split at i = floor(train_val_split * N): the train CSV receives exactly
i rows, the val CSV the remaining N - i, and their concatenation is the
whole annotation list, so every annotation goes to exactly one file.
The stated floor equals the Python int() truncation because the product
is nonnegative for a split fraction in [0, 1]. -/
theorem C5_split_counts :
    ∀ (split : ℚ) (rows : List CsvRow),
      0 ≤ split → split ≤ 1 →
      ((prepareStepCSVs split rows).1.length
          = (Int.floor (split * (rows.length : ℚ))).toNat ∧
       (prepareStepCSVs split rows).2.length
          = rows.length - (Int.floor (split * (rows.length : ℚ))).toNat ∧
       (prepareStepCSVs split rows).1 ++ (prepareStepCSVs split rows).2 = rows) := by
  intro split rows h0 h1
  have h2 : split * (rows.length : ℚ) ≤ (rows.length : ℚ) := by
    calc split * (rows.length : ℚ) ≤ 1 * (rows.length : ℚ) :=
          mul_le_mul_of_nonneg_right h1 (by positivity)
      _ = (rows.length : ℚ) := one_mul _
  have h3 : Int.floor (split * (rows.length : ℚ)) ≤ (rows.length : ℤ) := by
    calc Int.floor (split * (rows.length : ℚ)) ≤ Int.floor ((rows.length : ℚ)) :=
          Int.floor_le_floor h2
      _ = (rows.length : ℤ) := Int.floor_natCast rows.length
  have hle : (Int.floor (split * (rows.length : ℚ))).toNat ≤ rows.length :=
    Int.toNat_le.mpr h3
  refine ⟨?_, ?_, ?_⟩
  · simp only [prepareStepCSVs, write_csv, List.length_take]
    exact Nat.min_eq_left hle
  · simp [prepareStepCSVs, write_csv, List.length_drop]
  · simp [prepareStepCSVs, write_csv, List.take_append_drop]

/-- Witness for C5 at split 7/10 on the three concrete rows: the train CSV
gets floor(2.1) = 2 rows, the val CSV 1 row, and together they are the
whole list. -/
theorem C5_witness :
    (prepareStepCSVs (7/10) exRows).1.length = 2 ∧
    (prepareStepCSVs (7/10) exRows).2.length = 1 ∧
    (prepareStepCSVs (7/10) exRows).1 ++ (prepareStepCSVs (7/10) exRows).2 = exRows := by
  have h := C5_split_counts (7/10) exRows (by norm_num) (by norm_num)
  refine ⟨h.1.trans ?_, (h.2.1.trans ?_), h.2.2⟩
  · norm_num [exRows]
    decide
  · norm_num [exRows]
    decide

/-- C3 counterexample: not every launch is fire-and-forget.  The
reconstruct step of the manual ab-initio protocol launches the napari
viewer process and then joins it and blocks reading its result queue, so
its trace contains coordinating effects; the refresh loop of the napari
dialog polls the liveness of the thread it launched.  This refutes the
claim that no operation waits on, joins, or polls a launched subprocess
or thread. -/
theorem C3_counterexample :
    ¬ fireAndForget reconstructStepTrace ∧
    Effect.processJoin ∈ reconstructStepTrace ∧
    Effect.queueGet ∈ reconstructStepTrace ∧
    ¬ fireAndForget refreshGuiTrace ∧
    Effect.pollAlive ∈ refreshGuiTrace := by
  decide

/-- C3 amended: the launches are fire-and-forget except in two places:
ProtSingleParticleManualAbInitio.reconstructStep joins the launched
napari process and blocks on its queue, and NapariDialog.refresh_gui
polls the liveness of the launched thread once a second; the viewer show
methods and the dialog double-click handlers start their threads without
ever joining, polling, or reading from them. -/
theorem C3_launch_traces :
    fireAndForget doubleClickTrace ∧
    fireAndForget imageViewShowTrace ∧
    fireAndForget setOfImagesViewShowTrace ∧
    fireAndForget setOfParticlesViewShowTrace ∧
    fireAndForget coordsDialogDoubleClickTrace ∧
    ¬ fireAndForget reconstructStepTrace ∧
    ¬ fireAndForget refreshGuiTrace := by
  decide

/-- Helper: a nonempty list is not isEmpty. -/
theorem isEmpty_false_of_ne (t : List Char) (h : t ≠ []) : t.isEmpty = false := by
  cases t with
  | nil => exact absurd rfl h
  | cons a l => rfl

/-- Helper: takeWhile passes over a block it accepts wholly. -/
theorem takeWhile_append_all (p : Char → Bool) (l₁ l₂ : List Char) (h : l₁.all p = true) :
    (l₁ ++ l₂).takeWhile p = l₁ ++ l₂.takeWhile p := by
  induction l₁ with
  | nil => simp
  | cons a l ih =>
    simp only [List.all_cons, Bool.and_eq_true] at h
    simp [List.takeWhile_cons, h.1, ih h.2]

/-- Helper: dropWhile drops a block it accepts wholly. -/
theorem dropWhile_append_all (p : Char → Bool) (l₁ l₂ : List Char) (h : l₁.all p = true) :
    (l₁ ++ l₂).dropWhile p = l₂.dropWhile p := by
  induction l₁ with
  | nil => simp
  | cons a l ih =>
    simp only [List.all_cons, Bool.and_eq_true] at h
    simp [List.dropWhile_cons, h.1, ih h.2]

/-- Helper: a float token followed by a non-number character splits
exactly at the token boundary. -/
theorem tok_split (t : List Char) (ht : wfTok t) (c : Char) (hc : isNumChar c = false)
    (r : List Char) :
    (t ++ c :: r).takeWhile isNumChar = t ∧ (t ++ c :: r).dropWhile isNumChar = c :: r := by
  constructor
  · rw [takeWhile_append_all _ _ _ ht.2]
    simp [List.takeWhile_cons, hc]
  · rw [dropWhile_append_all _ _ _ ht.2]
    simp [List.dropWhile_cons, hc]

/-- Helper: the row-content parser inverts the comma-space join of the
tokens, leaving everything after the closing bracket untouched. -/
theorem parseRowAux_round :
    ∀ (toks : List (List Char)) (fuel : ℕ) (r : List Char),
      toks ≠ [] → (∀ t ∈ toks, wfTok t) → toks.length ≤ fuel →
      parseRowAux fuel (joinComma toks ++ (']' :: r)) = some (toks, r) := by
  intro toks
  induction toks with
  | nil => intro fuel r h _ _; exact absurd rfl h
  | cons t rest ih =>
    intro fuel r _ hwf hlen
    have hwt : wfTok t := hwf t (List.mem_cons_self t rest)
    cases fuel with
    | zero => simp at hlen
    | succ fuel =>
      cases rest with
      | nil =>
        have hsplit := tok_split t hwt ']' (by decide) r
        show parseRowAux (fuel + 1) (t ++ ']' :: r) = some ([t], r)
        simp only [parseRowAux, hsplit.1, hsplit.2,
          isEmpty_false_of_ne t hwt.1, Bool.false_eq_true, if_false]
        simp
      | cons t₂ rest₂ =>
        have hshape : joinComma (t :: t₂ :: rest₂) ++ (']' :: r)
            = t ++ ',' :: ' ' :: (joinComma (t₂ :: rest₂) ++ (']' :: r)) := by
          show (t ++ ',' :: ' ' :: joinComma (t₂ :: rest₂)) ++ (']' :: r) = _
          simp
        rw [hshape]
        have hsplit := tok_split t hwt ',' (by decide)
          (' ' :: (joinComma (t₂ :: rest₂) ++ (']' :: r)))
        have hrec := ih fuel r (by simp)
          (fun u hu => hwf u (List.mem_cons_of_mem t hu)) (by simp at hlen ⊢; omega)
        simp only [parseRowAux, hsplit.1, hsplit.2,
          isEmpty_false_of_ne t hwt.1, Bool.false_eq_true, if_false]
        simp [hrec]

/-- Helper: the joined text is at least as long as the number of
nonempty tokens, which bounds the parser fuel. -/
theorem joinComma_length_ge (toks : List (List Char)) (h : ∀ t ∈ toks, t ≠ []) :
    toks.length ≤ (joinComma toks).length := by
  induction toks with
  | nil => simp
  | cons t rest ih =>
    have ht : t ≠ [] := h t (List.mem_cons_self t rest)
    have ht1 : 1 ≤ t.length := by
      cases t with
      | nil => exact absurd rfl ht
      | cons a l => simp
    cases rest with
    | nil => simpa [joinComma] using ht1
    | cons t₂ rest₂ =>
      have hih := ih (fun u hu => h u (List.mem_cons_of_mem t hu))
      have hjc : joinComma (t :: t₂ :: rest₂) = t ++ ',' :: ' ' :: joinComma (t₂ :: rest₂) := rfl
      rw [hjc]
      simp only [List.length_cons, List.length_append]
      simp at hih ⊢
      omega

/-- Helper: the row parser inverts the row serializer. -/
theorem parseRow_round (row : List (List Char)) (hwf : ∀ t ∈ row, wfTok t) (rest : List Char) :
    parseRow (dumpRow row ++ rest) = some (row, rest) := by
  cases row with
  | nil => rfl
  | cons t rest₂ =>
    have hwt : wfTok t := hwf t (List.mem_cons_self t rest₂)
    have hshape : dumpRow (t :: rest₂) ++ rest
        = '[' :: (joinComma (t :: rest₂) ++ (']' :: rest)) := by
      simp [dumpRow]
    rw [hshape]
    obtain ⟨c, t1, hct⟩ : ∃ c t1, t = c :: t1 := by
      cases t with
      | nil => exact absurd rfl hwt.1
      | cons c t1 => exact ⟨c, t1, rfl⟩
    have hcnum : isNumChar c = true := by
      have h2 := hwt.2
      rw [hct] at h2
      simp only [List.all_cons, Bool.and_eq_true] at h2
      exact h2.1
    have hcne : ¬(c = ']') := by
      intro h
      rw [h] at hcnum
      exact absurd hcnum (by decide)
    obtain ⟨X, hX⟩ : ∃ X, joinComma (t :: rest₂) ++ (']' :: rest) = c :: X := by
      cases rest₂ with
      | nil => exact ⟨t1 ++ (']' :: rest), by rw [hct]; simp [joinComma]⟩
      | cons a b =>
        refine ⟨(t1 ++ ',' :: ' ' :: joinComma (a :: b)) ++ (']' :: rest), ?_⟩
        have : joinComma (t :: a :: b) = t ++ ',' :: ' ' :: joinComma (a :: b) := rfl
        rw [this, hct]
        simp
    rw [hX]
    simp only [parseRow, if_pos rfl, if_neg hcne]
    rw [← hX]
    have hfuel : (t :: rest₂).length ≤ (c :: X).length + 1 := by
      have hne : ∀ u ∈ t :: rest₂, u ≠ [] := fun u hu => (hwf u hu).1
      have h1 := joinComma_length_ge (t :: rest₂) hne
      have h2 : (c :: X).length = (joinComma (t :: rest₂)).length + 1 + rest.length := by
        rw [← hX]
        simp
        omega
      omega
    rw [← hX] at hfuel
    exact parseRowAux_round (t :: rest₂) _ rest (by simp) hwf hfuel

/-- Helper: the rows parser inverts the joined row serializations. -/
theorem parseRowsAux_round :
    ∀ (rows : List (List (List Char))) (fuel : ℕ) (r : List Char),
      rows ≠ [] → wfMat rows → rows.length ≤ fuel →
      parseRowsAux fuel (joinComma (rows.map dumpRow) ++ (']' :: r)) = some (rows, r) := by
  intro rows
  induction rows with
  | nil => intro fuel r h _ _; exact absurd rfl h
  | cons row rest ih =>
    intro fuel r _ hwf hlen
    have hwfrow : ∀ t ∈ row, wfTok t := hwf row (List.mem_cons_self row rest)
    cases fuel with
    | zero => simp at hlen
    | succ fuel =>
      cases rest with
      | nil =>
        show parseRowsAux (fuel + 1) (dumpRow row ++ (']' :: r)) = some ([row], r)
        simp only [parseRowsAux, parseRow_round row hwfrow (']' :: r)]
        simp
      | cons row₂ rest₂ =>
        have hshape : joinComma ((row :: row₂ :: rest₂).map dumpRow) ++ (']' :: r)
            = dumpRow row ++ ',' :: ' ' ::
                (joinComma ((row₂ :: rest₂).map dumpRow) ++ (']' :: r)) := by
          show (dumpRow row ++ ',' :: ' ' :: joinComma ((row₂ :: rest₂).map dumpRow))
              ++ (']' :: r) = _
          simp
        rw [hshape]
        have hrec := ih fuel r (by simp)
          (fun u hu => hwf u (List.mem_cons_of_mem row hu)) (by simp at hlen ⊢; omega)
        simp only [parseRowsAux,
          parseRow_round row hwfrow
            (',' :: ' ' :: (joinComma ((row₂ :: rest₂).map dumpRow) ++ (']' :: r)))]
        simp only [List.map_cons] at hrec
        simp [hrec]

/-- C9: _convertValue applied to the string produced by getObjValue
restores the stored matrix: serialization followed by parsing is the
identity, for matrices of any shape whose entries are float repr tokens
(in particular for the 4x4 matrices a Matrix object holds; finiteness of
the floats is what makes every entry such a token). -/
theorem C9_roundtrip :
    ∀ m : List (List (List Char)), wfMat m →
      Matrix.convertValue (Matrix.getObjValue m) = some m := by
  intro m hwf
  show parseMatrix (dumpMatrix m) = some m
  cases m with
  | nil => rfl
  | cons row rest =>
    obtain ⟨Y, hY⟩ : ∃ Y, joinComma ((row :: rest).map dumpRow) ++ (']' :: ([] : List Char))
        = '[' :: Y := by
      cases rest with
      | nil => exact ⟨(joinComma row ++ [']']) ++ (']' :: []), by simp [joinComma, dumpRow]⟩
      | cons a b =>
        refine ⟨(joinComma row ++ [']']) ++ ',' :: ' ' ::
          joinComma ((a :: b).map dumpRow) ++ (']' :: []), ?_⟩
        have : joinComma ((row :: a :: b).map dumpRow)
            = dumpRow row ++ ',' :: ' ' :: joinComma ((a :: b).map dumpRow) := rfl
        rw [this]
        simp [dumpRow]
    have hshape : dumpMatrix (row :: rest)
        = '[' :: (joinComma ((row :: rest).map dumpRow) ++ (']' :: ([] : List Char))) := by
      simp [dumpMatrix]
    rw [hshape, hY]
    simp only [parseMatrix, if_pos rfl, if_neg (by decide : ¬(('[' : Char) = ']'))]
    rw [← hY]
    have hfuel : (row :: rest).length ≤ ('[' :: Y).length + 1 := by
      have hne : ∀ u ∈ (row :: rest).map dumpRow, u ≠ [] := by
        intro u hu
        obtain ⟨v, _, hv⟩ := List.mem_map.mp hu
        rw [← hv]
        simp [dumpRow]
      have h1 := joinComma_length_ge ((row :: rest).map dumpRow) hne
      have h2 : ('[' :: Y).length = (joinComma ((row :: rest).map dumpRow)).length + 1 := by
        rw [← hY]
        simp
      simp at h1 h2 ⊢
      omega
    rw [← hY] at hfuel
    rw [parseRowsAux_round (row :: rest) _ [] (by simp) hwf hfuel]
    rfl

/-- Witness for C9 at the concrete 4x4 identity token matrix. -/
theorem C9_witness :
    wfMat exTokMat ∧ Matrix.convertValue (Matrix.getObjValue exTokMat) = some exTokMat :=
  ⟨by decide, C9_roundtrip exTokMat (by decide)⟩

end SpfluoVerif
